import Mathlib

/-!
Verification development for the a3-transcoder worker core.

Shallow embedding of the job processing engine: the job state store
(`getItem` / `setItem` / `_update_job` from `worker/worker.py`, plus the
API-side conditional `dal_update_job` from `api/dal.py`), the preset
resolver and encoder invocation (`worker/transcode.py`), the per-message
pipeline (`process_message`) and the consumer loop (`runDeliveries`,
modelling `main`), and startup configuration validation
(`common/config.py`).

External effects (S3 download/upload, the ffmpeg subprocess, SQS delete)
are driven by an `Oracle` that fixes the outcome of each call, so a single
delivery is a pure function of the store, the parsed message body and the
oracle.  Timestamps are modelled as abstract `Nat` ticks, one clock value
per delivery.
-/

/-- Job status enum, the four string values used by the repository. -/
inductive Status
  | PENDING
  | RUNNING
  | DONE
  | FAILED
deriving DecidableEq

/-- A persisted job record (DynamoDB item).  Every attribute is optional,
as in the document store; fields the worker never touches (`createdAt`,
`userId`, `inputKey`, `preset`) are carried to express "all stored fields
unchanged" claims. -/
structure JobRec where
  status : Option Status := none
  outputKey : Option String := none
  error : Option String := none
  startedAt : Option Nat := none
  finishedAt : Option Nat := none
  updatedAt : Option Nat := none
  createdAt : Option Nat := none
  userId : Option String := none
  inputKey : Option String := none
  preset : Option String := none
deriving DecidableEq

/-- The job table: an association list keyed by `jobId`. -/
def Store := List (String × JobRec)
deriving DecidableEq

/-- `get_item` on the jobs table. -/
def getItem : Store → String → Option JobRec
  | [], _ => none
  | (k, r) :: rest, jid => if k = jid then some r else getItem rest jid

/-- Upsert semantics of DynamoDB `update_item`: replace the stored record
if the key is present, otherwise create it. -/
def setItem : Store → String → JobRec → Store
  | [], jid, r => [(jid, r)]
  | (k, r0) :: rest, jid, r =>
      if k = jid then (k, r) :: rest else (k, r0) :: setItem rest jid r

/-- The set of fields a single `update` call passes (the worker only ever
sets a subset of `status`, `outputKey`, `error`, `startedAt`,
`finishedAt`; `updatedAt` is stamped by the update function itself). -/
structure FieldSet where
  status : Option Status := none
  outputKey : Option String := none
  error : Option String := none
  startedAt : Option Nat := none
  finishedAt : Option Nat := none
deriving DecidableEq

/-- `SET` of one optional field: a field named in the update expression
overwrites, an absent one is left alone. -/
def ov {α : Type} (new old : Option α) : Option α :=
  match new with
  | some v => some v
  | none => old

/-- Apply a `SET` update expression to a record. -/
def applyFieldSet (r : JobRec) (fs : FieldSet) : JobRec :=
  { r with
    status := ov fs.status r.status
    outputKey := ov fs.outputKey r.outputKey
    error := ov fs.error r.error
    startedAt := ov fs.startedAt r.startedAt
    finishedAt := ov fs.finishedAt r.finishedAt }

/-- The `fields["updatedAt"] = _now()` stamp added by both update
functions before building the expression. -/
def stampUpdated (r : JobRec) (t : Nat) : JobRec :=
  { r with updatedAt := some t }

/-- `worker/worker.py` `_update_job`: a generic `SET` update.  The
`update_item` call passes NO `ConditionExpression` (its docstring claims
conditional failures are ignored, but no condition is ever attached), so
the write is an unconditional upsert. -/
def _update_job (st : Store) (jid : String) (fs : FieldSet) (t : Nat) : Store :=
  setItem st jid (stampUpdated (applyFieldSet ((getItem st jid).getD {}) fs) t)

/-- `api/dal.py` `update_job`: the API-side variant, which DOES attach
`ConditionExpression = "attribute_not_exists(jobId) OR #st <> :done"`.
A condition failure surfaces to the caller as an error (dal does not
catch `ConditionalCheckFailedException`). -/
def dal_update_job (st : Store) (jid : String) (fs : FieldSet) (t : Nat) :
    Except String Store :=
  match getItem st jid with
  | none => .ok (setItem st jid (stampUpdated (applyFieldSet {} fs) t))
  | some r =>
      match r.status with
      | some s =>
          if s = .DONE then .error "ConditionalCheckFailedException"
          else .ok (setItem st jid (stampUpdated (applyFieldSet r fs) t))
      | none => .error "ConditionalCheckFailedException"

/-- Stored status of a job, `job.get("status")`. -/
def statusOf (st : Store) (jid : String) : Option Status :=
  (getItem st jid).bind JobRec.status

/-- Stored `outputKey` of a job. -/
def outputKeyOf (st : Store) (jid : String) : Option String :=
  (getItem st jid).bind JobRec.outputKey

/-- Stored `error` of a job. -/
def errorOf (st : Store) (jid : String) : Option String :=
  (getItem st jid).bind JobRec.error

/-- Stored `finishedAt` of a job. -/
def finishedAtOf (st : Store) (jid : String) : Option Nat :=
  (getItem st jid).bind JobRec.finishedAt

/-- Stored `updatedAt` of a job. -/
def updatedAtOf (st : Store) (jid : String) : Option Nat :=
  (getItem st jid).bind JobRec.updatedAt

/-! ## Preset resolver and encoder invocation (`worker/transcode.py`) -/

/-- Resolved encode parameters of one preset. -/
structure PresetSpec where
  width : Nat
  height : Nat
  crf : Nat
deriving DecidableEq

/-- The `PRESET_SPECS` dict of `worker/transcode.py`. -/
def PRESET_SPECS : List (String × PresetSpec) :=
  [("mp4-1080p", ⟨1920, 1080, 23⟩),
   ("mp4-720p", ⟨1280, 720, 23⟩),
   ("mp4-480p", ⟨854, 480, 24⟩),
   ("mp4-360p", ⟨640, 360, 25⟩)]

/-- Dict lookup. -/
def getSpec : List (String × PresetSpec) → String → Option PresetSpec
  | [], _ => none
  | (k, v) :: rest, p => if k = p then some v else getSpec rest p

/-- `PRESET_SPECS.get(preset, PRESET_SPECS["mp4-720p"])` — the resolution
step of `run_ffmpeg`.  The inner `getD` default is unreachable because
"mp4-720p" is a key of `PRESET_SPECS`. -/
def resolvePreset (p : String) : PresetSpec :=
  (getSpec PRESET_SPECS p).getD ((getSpec PRESET_SPECS "mp4-720p").getD ⟨0, 0, 0⟩)

/-- `_args_for_intensity` from `worker/transcode.py`.  `(level or
"high").lower()` treats the empty string as the default "high". -/
def _args_for_intensity (level : String) : List String :=
  let l := (if level = "" then "high" else level).toLower
  if l = "low" then ["-c:v", "libx264", "-preset", "faster", "-threads", "0"]
  else if l = "medium" then ["-c:v", "libx264", "-preset", "slow", "-threads", "0"]
  else if l = "max" then
    ["-c:v", "libx264", "-preset", "placebo", "-tune", "film", "-threads", "0",
     "-x264-params", "me=tesa:subme=10:merange=64:ref=6:rc-lookahead=60"]
  else ["-c:v", "libx264", "-preset", "veryslow", "-threads", "0"]

/-- The full ffmpeg command line built by `run_ffmpeg`. -/
def ffmpegCmd (inPath outPath preset intensity : String) : List String :=
  let spec := resolvePreset preset
  let videoArgs :=
    ["-vf", "scale=" ++ toString spec.width ++ ":" ++ toString spec.height ++ ":flags=lanczos"]
      ++ _args_for_intensity intensity
      ++ ["-crf", toString spec.crf, "-pix_fmt", "yuv420p", "-movflags", "+faststart", "-an"]
  ["ffmpeg", "-y", "-hide_banner", "-loglevel", "error", "-i", inPath] ++ videoArgs ++ [outPath]

/-- The `RuntimeError` text raised on a non-zero ffmpeg exit. -/
def ffmpegFailMsg (rc : Int) (cmd : List String) (stderr : String) : String :=
  "ffmpeg failed (" ++ toString rc ++ "). Cmd: " ++ String.intercalate " " cmd
    ++ "\n" ++ stderr.trim

/-- `run_ffmpeg` from `worker/transcode.py`.  The subprocess outcome
(return code and captured stderr) is supplied by the caller's oracle;
a non-zero return code raises, modelled by `Except.error` carrying the
exception's string. -/
def run_ffmpeg (inPath outPath preset intensity : String) (rc : Int) (stderr : String) :
    Except String String :=
  if rc ≠ 0 then .error (ffmpegFailMsg rc (ffmpegCmd inPath outPath preset intensity) stderr)
  else .ok outPath

/-! ## The per-message pipeline (`worker/worker.py` `process_message`) -/

/-- A queue message body that parsed as JSON: a dict whose `jobId` and
`inputKey` keys may be absent (subscripting a missing key raises
`KeyError`); `preset` is read with `.get(..., "mp4-720p")`. -/
structure MsgBody where
  jobId : Option String
  inputKey : Option String
  preset : Option String
deriving DecidableEq

/-- Outcomes of the external calls made while processing one delivery:
the S3 download, the ffmpeg subprocess, the S3 upload and the SQS
delete.  Each failing call raises with the given diagnostic string. -/
structure Oracle where
  downloadOk : Bool
  downloadErr : String
  ffmpegRc : Int
  ffmpegStderr : String
  uploadOk : Bool
  uploadErr : String
  deleteOk : Bool
  deleteErr : String
deriving DecidableEq

/-- Trace of the externally visible calls a delivery makes, in order. -/
inductive Event
  | getJobEv (jid : String)
  | updateJobEv (jid : String) (fs : FieldSet)
  | downloadEv (key : String)
  | encodeEv (preset : String)
  | uploadEv (key : String)
  | deleteMsgEv (receipt : String)
deriving DecidableEq

/-- How `process_message` returns to the caller: normally, or by
propagating an uncaught exception. -/
inductive PmResult
  | ok
  | uncaught (e : String)
deriving DecidableEq

/-- Result of one `process_message` call: the job store afterwards, the
ordered call trace, whether this delivery's queue message was deleted,
and how control returned. -/
structure PmOut where
  store : Store
  events : List Event
  deleted : Bool
  result : PmResult
deriving DecidableEq

/-- The idempotency guard `job and job.get("status") in {"RUNNING",
"DONE"}`. -/
def idempotencyBlocked (st : Store) (jid : String) : Bool :=
  match getItem st jid with
  | some j => j.status = some .RUNNING || j.status = some .DONE
  | none => false

/-- `process_message` from `worker/worker.py`, mirroring its control flow:
`msg_body["jobId"]` / `msg_body["inputKey"]` (KeyError on a missing key),
the idempotency guard, the RUNNING transition, the S3 download (note: it
sits BEFORE the `try:` block, so its failure propagates out), then inside
the `try`: encode, upload to `output/<jobId>.mp4`, the DONE write and the
message delete; the `except` handler writes FAILED with `error=str(e)`
and `finishedAt` and swallows the exception. -/
def process_message (st : Store) (body : MsgBody) (receipt : String) (o : Oracle) (t : Nat) :
    PmOut :=
  match body.jobId with
  | none => ⟨st, [], false, .uncaught "KeyError: jobId"⟩
  | some jid =>
    match body.inputKey with
    | none => ⟨st, [], false, .uncaught "KeyError: inputKey"⟩
    | some inputKey =>
      let preset := body.preset.getD "mp4-720p"
      if idempotencyBlocked st jid then
        ⟨st, [.getJobEv jid, .deleteMsgEv receipt], true, .ok⟩
      else
        let fsRun : FieldSet := { status := some .RUNNING, startedAt := some t }
        let st1 := _update_job st jid fsRun t
        let ev1 : List Event := [.getJobEv jid, .updateJobEv jid fsRun]
        if o.downloadOk then
          let ev2 := ev1 ++ [.downloadEv inputKey]
          match run_ffmpeg "input.mp4" "output.mp4" preset "high" o.ffmpegRc o.ffmpegStderr with
          | .error e =>
            let fsF : FieldSet := { status := some .FAILED, error := some e, finishedAt := some t }
            ⟨_update_job st1 jid fsF t,
             ev2 ++ [.encodeEv preset, .updateJobEv jid fsF], false, .ok⟩
          | .ok _ =>
            let outputKey := "output/" ++ jid ++ ".mp4"
            let ev3 := ev2 ++ [.encodeEv preset]
            if o.uploadOk then
              let fsD : FieldSet :=
                { status := some .DONE, outputKey := some outputKey, finishedAt := some t }
              let st2 := _update_job st1 jid fsD t
              let ev4 := ev3 ++ [.uploadEv outputKey, .updateJobEv jid fsD]
              if o.deleteOk then
                ⟨st2, ev4 ++ [.deleteMsgEv receipt], true, .ok⟩
              else
                let fsF : FieldSet :=
                  { status := some .FAILED, error := some o.deleteErr, finishedAt := some t }
                ⟨_update_job st2 jid fsF t,
                 ev4 ++ [.deleteMsgEv receipt, .updateJobEv jid fsF], false, .ok⟩
            else
              let fsF : FieldSet :=
                { status := some .FAILED, error := some o.uploadErr, finishedAt := some t }
              ⟨_update_job st1 jid fsF t,
               ev3 ++ [.uploadEv outputKey, .updateJobEv jid fsF], false, .ok⟩
        else
          ⟨st1, ev1 ++ [.downloadEv inputKey], false, .uncaught o.downloadErr⟩

/-! ## The consumer loop (`worker/worker.py` `main`) -/

/-- One received SQS message as `main` sees it: either its body fails to
parse as JSON, or it parses to a `MsgBody`. -/
inductive RawMsg
  | malformed (receipt : String)
  | wellFormed (body : MsgBody) (receipt : String)
deriving DecidableEq

/-- One delivery handed to the loop: the raw message, the oracle fixing
the outcome of each external call, and the clock value of the cycle. -/
structure Delivery where
  msg : RawMsg
  oracle : Oracle
  time : Nat
deriving DecidableEq

/-- Accumulated outcome of running the consumer loop over a list of
deliveries. -/
structure RunOut where
  store : Store
  events : List Event
  crashed : Bool
deriving DecidableEq

/-- The consumer loop of `main`: a malformed body is deleted and the loop
continues (the poison-message defense); a well-formed body is handed to
`process_message`, which `main` does NOT wrap in any try/except — an
uncaught exception terminates the loop, leaving the remaining deliveries
unprocessed. -/
def runDeliveries : Store → List Delivery → RunOut
  | st, [] => ⟨st, [], false⟩
  | st, d :: ds =>
    match d.msg with
    | .malformed r =>
        let rest := runDeliveries st ds
        ⟨rest.store, .deleteMsgEv r :: rest.events, rest.crashed⟩
    | .wellFormed body r =>
        let out := process_message st body r d.oracle d.time
        match out.result with
        | .uncaught _ => ⟨out.store, out.events, true⟩
        | .ok =>
            let rest := runDeliveries out.store ds
            ⟨rest.store, out.events ++ rest.events, rest.crashed⟩

/-- The successive values written to a given job's `status` attribute by
a call trace. -/
def statusWritesTo (jid : String) (evs : List Event) : List Status :=
  evs.filterMap fun e =>
    match e with
    | .updateJobEv j fs => if j = jid then fs.status else none
    | _ => none

/-! ## Startup configuration validation (`common/config.py`) -/

/-- The process environment: variable name to value, absent allowed. -/
def EnvMap := String → Option String

/-- Python truthiness test `not v` on an optional string: `None` and the
empty string are falsy. -/
def pyFalsy : Option String → Bool
  | none => true
  | some s => if s = "" then true else false

/-- `S3_BUCKET = os.getenv("S3_BUCKET")`. -/
def S3_BUCKET (env : EnvMap) : Option String := env "S3_BUCKET"

/-- `SQS_URL = os.getenv("SQS_URL")`. -/
def SQS_URL (env : EnvMap) : Option String := env "SQS_URL"

/-- `DDB_JOBS_TABLE = os.getenv("DDB_JOBS_TABLE", "a3_jobs")` — absent
from the environment defaults to `"a3_jobs"`. -/
def DDB_JOBS_TABLE (env : EnvMap) : String := (env "DDB_JOBS_TABLE").getD "a3_jobs"

/-- Python `int()` on a string of a non-negative decimal literal;
anything else raises, modelled as `none`. -/
def pyInt (s : String) : Option Nat :=
  if !s.data.isEmpty && s.data.all Char.isDigit then
    some (s.data.foldl (fun n c => n * 10 + (c.toNat - 48)) 0)
  else none

/-- `MAX_VIS_TIMEOUT = int(os.getenv("MAX_VIS_TIMEOUT", "1800"))` —
absent defaults to 1800. -/
def MAX_VIS_TIMEOUT (env : EnvMap) : Option Nat :=
  pyInt ((env "MAX_VIS_TIMEOUT").getD "1800")

/-- `assert_core_env` from `common/config.py`: collects the falsy values
among exactly `S3_BUCKET`, `SQS_URL` and `DDB_JOBS_TABLE` and raises
`RuntimeError` when the list is non-empty.  The lease ceiling and the
poll wait are not checked (the poll wait, `WaitTimeSeconds=20`, is not
even configurable). -/
def assert_core_env (env : EnvMap) : Except String Unit :=
  let missing :=
    (if pyFalsy (S3_BUCKET env) then ["S3_BUCKET"] else [])
      ++ (if pyFalsy (SQS_URL env) then ["SQS_URL"] else [])
      ++ (if DDB_JOBS_TABLE env = "" then ["DDB_JOBS_TABLE"] else [])
  if missing.isEmpty then .ok ()
  else .error ("Missing required env vars: " ++ String.intercalate ", " missing)

/-! ## Store lemmas -/

theorem getItem_setItem_self (st : Store) (jid : String) (r : JobRec) :
    getItem (setItem st jid r) jid = some r := by
  induction st with
  | nil => simp [setItem, getItem]
  | cons hd tl ih =>
      obtain ⟨k, r0⟩ := hd
      by_cases hk : k = jid
      · simp [setItem, getItem, hk]
      · simp [setItem, getItem, hk, ih]

theorem getItem_setItem_ne (st : Store) (jid jid' : String) (r : JobRec)
    (h : jid' ≠ jid) : getItem (setItem st jid r) jid' = getItem st jid' := by
  induction st with
  | nil => simp [setItem, getItem, Ne.symm h]
  | cons hd tl ih =>
      obtain ⟨k, r0⟩ := hd
      by_cases hk : k = jid
      · subst hk
        simp [setItem, getItem, Ne.symm h]
      · simp [setItem, getItem, hk, ih]

theorem getItem_update_self (st : Store) (jid : String) (fs : FieldSet) (t : Nat) :
    getItem (_update_job st jid fs t) jid
      = some (stampUpdated (applyFieldSet ((getItem st jid).getD {}) fs) t) := by
  simp [_update_job, getItem_setItem_self]

theorem getItem_update_ne (st : Store) (jid jid' : String) (fs : FieldSet) (t : Nat)
    (h : jid' ≠ jid) : getItem (_update_job st jid fs t) jid' = getItem st jid' := by
  simp [_update_job, getItem_setItem_ne _ _ _ _ h]

theorem statusOf_update_self (st : Store) (jid : String) (fs : FieldSet) (t : Nat)
    (x : Status) (h : fs.status = some x) :
    statusOf (_update_job st jid fs t) jid = some x := by
  simp [statusOf, getItem_update_self, stampUpdated, applyFieldSet, ov, h]

/-! ## Branch equations for `process_message` -/

/-- The `RUNNING` field set written by the guard-passing path. -/
def fsRUNNING (t : Nat) : FieldSet := { status := some .RUNNING, startedAt := some t }

/-- The `DONE` field set written on success. -/
def fsDONE (jid : String) (t : Nat) : FieldSet :=
  { status := some .DONE, outputKey := some ("output/" ++ jid ++ ".mp4"), finishedAt := some t }

/-- The `FAILED` field set written by the `except` handler. -/
def fsFAILED (e : String) (t : Nat) : FieldSet :=
  { status := some .FAILED, error := some e, finishedAt := some t }

theorem pm_keyError_jobId (st : Store) (ik p : Option String) (r : String) (o : Oracle) (t : Nat) :
    process_message st ⟨none, ik, p⟩ r o t = ⟨st, [], false, .uncaught "KeyError: jobId"⟩ := rfl

theorem pm_keyError_inputKey (st : Store) (j : String) (p : Option String) (r : String)
    (o : Oracle) (t : Nat) :
    process_message st ⟨some j, none, p⟩ r o t
      = ⟨st, [], false, .uncaught "KeyError: inputKey"⟩ := rfl

theorem pm_blocked (st : Store) (j ik : String) (p : Option String) (r : String)
    (o : Oracle) (t : Nat) (h : idempotencyBlocked st j = true) :
    process_message st ⟨some j, some ik, p⟩ r o t
      = ⟨st, [.getJobEv j, .deleteMsgEv r], true, .ok⟩ := by
  simp [process_message, h]

theorem pm_download_fail (st : Store) (j ik : String) (p : Option String) (r : String)
    (o : Oracle) (t : Nat) (h : idempotencyBlocked st j = false)
    (h2 : o.downloadOk = false) :
    process_message st ⟨some j, some ik, p⟩ r o t
      = ⟨_update_job st j (fsRUNNING t) t,
         [.getJobEv j, .updateJobEv j (fsRUNNING t), .downloadEv ik],
         false, .uncaught o.downloadErr⟩ := by
  simp [process_message, h, h2, fsRUNNING]

theorem pm_encode_fail (st : Store) (j ik : String) (p : Option String) (r : String)
    (o : Oracle) (t : Nat) (h : idempotencyBlocked st j = false)
    (h2 : o.downloadOk = true) (h3 : o.ffmpegRc ≠ 0) :
    process_message st ⟨some j, some ik, p⟩ r o t
      = ⟨_update_job (_update_job st j (fsRUNNING t) t) j
           (fsFAILED (ffmpegFailMsg o.ffmpegRc
             (ffmpegCmd "input.mp4" "output.mp4" (p.getD "mp4-720p") "high") o.ffmpegStderr) t) t,
         [.getJobEv j, .updateJobEv j (fsRUNNING t), .downloadEv ik,
          .encodeEv (p.getD "mp4-720p"),
          .updateJobEv j (fsFAILED (ffmpegFailMsg o.ffmpegRc
            (ffmpegCmd "input.mp4" "output.mp4" (p.getD "mp4-720p") "high") o.ffmpegStderr) t)],
         false, .ok⟩ := by
  simp [process_message, h, h2, run_ffmpeg, h3, fsRUNNING, fsFAILED]

theorem pm_upload_fail (st : Store) (j ik : String) (p : Option String) (r : String)
    (o : Oracle) (t : Nat) (h : idempotencyBlocked st j = false)
    (h2 : o.downloadOk = true) (h3 : o.ffmpegRc = 0) (h4 : o.uploadOk = false) :
    process_message st ⟨some j, some ik, p⟩ r o t
      = ⟨_update_job (_update_job st j (fsRUNNING t) t) j (fsFAILED o.uploadErr t) t,
         [.getJobEv j, .updateJobEv j (fsRUNNING t), .downloadEv ik,
          .encodeEv (p.getD "mp4-720p"), .uploadEv ("output/" ++ j ++ ".mp4"),
          .updateJobEv j (fsFAILED o.uploadErr t)],
         false, .ok⟩ := by
  simp [process_message, h, h2, run_ffmpeg, h3, h4, fsRUNNING, fsFAILED]

theorem pm_success (st : Store) (j ik : String) (p : Option String) (r : String)
    (o : Oracle) (t : Nat) (h : idempotencyBlocked st j = false)
    (h2 : o.downloadOk = true) (h3 : o.ffmpegRc = 0) (h4 : o.uploadOk = true)
    (h5 : o.deleteOk = true) :
    process_message st ⟨some j, some ik, p⟩ r o t
      = ⟨_update_job (_update_job st j (fsRUNNING t) t) j (fsDONE j t) t,
         [.getJobEv j, .updateJobEv j (fsRUNNING t), .downloadEv ik,
          .encodeEv (p.getD "mp4-720p"), .uploadEv ("output/" ++ j ++ ".mp4"),
          .updateJobEv j (fsDONE j t), .deleteMsgEv r],
         true, .ok⟩ := by
  simp [process_message, h, h2, run_ffmpeg, h3, h4, h5, fsRUNNING, fsDONE]

theorem pm_delete_fail (st : Store) (j ik : String) (p : Option String) (r : String)
    (o : Oracle) (t : Nat) (h : idempotencyBlocked st j = false)
    (h2 : o.downloadOk = true) (h3 : o.ffmpegRc = 0) (h4 : o.uploadOk = true)
    (h5 : o.deleteOk = false) :
    process_message st ⟨some j, some ik, p⟩ r o t
      = ⟨_update_job (_update_job (_update_job st j (fsRUNNING t) t) j (fsDONE j t) t) j
           (fsFAILED o.deleteErr t) t,
         [.getJobEv j, .updateJobEv j (fsRUNNING t), .downloadEv ik,
          .encodeEv (p.getD "mp4-720p"), .uploadEv ("output/" ++ j ++ ".mp4"),
          .updateJobEv j (fsDONE j t), .deleteMsgEv r,
          .updateJobEv j (fsFAILED o.deleteErr t)],
         false, .ok⟩ := by
  simp [process_message, h, h2, run_ffmpeg, h3, h4, h5, fsRUNNING, fsDONE, fsFAILED]

/-! ## Status-sequence machinery for the state-machine claims -/

/-- One transition of the status-write recognizer.  State 0: between
attempts (stored status PENDING or FAILED, or initial); state 1: an
attempt has written RUNNING; state 2: the attempt has written DONE
(from which only the failed-queue-delete FAILED overwrite may follow). -/
def delta1 : Nat → Status → Option Nat
  | 0, .RUNNING => some 1
  | 1, .FAILED => some 0
  | 1, .DONE => some 2
  | 2, .FAILED => some 0
  | _, _ => none

/-- Run the recognizer over a word of status writes. -/
def deltaRun : Nat → List Status → Option Nat
  | s, [] => some s
  | s, w :: l =>
      match delta1 s w with
      | some s1 => deltaRun s1 l
      | none => none

theorem statusWritesTo_append (jid : String) (a b : List Event) :
    statusWritesTo jid (a ++ b) = statusWritesTo jid a ++ statusWritesTo jid b := by
  simp [statusWritesTo, List.filterMap_append]

/-- A job whose stored status is DONE trips the idempotency guard. -/
theorem blocked_of_done (st : Store) (jid : String) (h : statusOf st jid = some .DONE) :
    idempotencyBlocked st jid = true := by
  unfold idempotencyBlocked
  unfold statusOf at h
  cases hgi : getItem st jid with
  | none => rw [hgi] at h; simp at h
  | some jr =>
      rw [hgi] at h
      have h2 : jr.status = some Status.DONE := h
      simp [h2]

/-- Processing a message for a different job writes nothing to this job's
status and leaves this job's record untouched. -/
theorem pm_other_key (st : Store) (j ik : String) (p : Option String) (r : String)
    (o : Oracle) (t : Nat) (jid : String) (hne : j ≠ jid) :
    statusWritesTo jid (process_message st ⟨some j, some ik, p⟩ r o t).events = []
      ∧ getItem (process_message st ⟨some j, some ik, p⟩ r o t).store jid = getItem st jid := by
  have gne : ∀ (s : Store) (fs : FieldSet) (tt : Nat),
      getItem (_update_job s j fs tt) jid = getItem s jid :=
    fun s fs tt => getItem_update_ne s j jid fs tt (Ne.symm hne)
  cases hb : idempotencyBlocked st j with
  | true => simp [pm_blocked st j ik p r o t hb, statusWritesTo]
  | false =>
      cases hdl : o.downloadOk with
      | false =>
          simp [pm_download_fail st j ik p r o t hb hdl, statusWritesTo, hne, gne]
      | true =>
          by_cases hrc : o.ffmpegRc = 0
          · cases hup : o.uploadOk with
            | false =>
                simp [pm_upload_fail st j ik p r o t hb hdl hrc hup, statusWritesTo, hne, gne]
            | true =>
                cases hdel : o.deleteOk with
                | true =>
                    simp [pm_success st j ik p r o t hb hdl hrc hup hdel, statusWritesTo,
                      hne, gne]
                | false =>
                    simp [pm_delete_fail st j ik p r o t hb hdl hrc hup hdel, statusWritesTo,
                      hne, gne]
          · simp [pm_encode_fail st j ik p r o t hb hdl hrc, statusWritesTo, hne, gne]

/-- Processing any single message leaves the record of a job whose stored
status is DONE untouched: a delivery for that very job trips the guard,
and a delivery for another job only writes the other job's key. -/
theorem pm_done_preserved (st : Store) (body : MsgBody) (r : String) (o : Oracle) (t : Nat)
    (jid : String) (hd : statusOf st jid = some .DONE) :
    getItem (process_message st body r o t).store jid = getItem st jid := by
  obtain ⟨jOpt, ikOpt, p⟩ := body
  cases jOpt with
  | none => simp [pm_keyError_jobId]
  | some j =>
      cases ikOpt with
      | none => simp [pm_keyError_inputKey]
      | some ik =>
          by_cases hj : j = jid
          · subst hj
            simp [pm_blocked st j ik p r o t (blocked_of_done st j hd)]
          · exact (pm_other_key st j ik p r o t jid hj).2

/-- Once stored DONE, a job's record survives any further deliveries of
the loop unchanged. -/
theorem run_preserve_done (jid : String) :
    ∀ (ds : List Delivery) (st : Store), statusOf st jid = some .DONE →
      getItem (runDeliveries st ds).store jid = getItem st jid := by
  intro ds
  induction ds with
  | nil => intro st _; rfl
  | cons d ds ih =>
      intro st h
      obtain ⟨msg, o, t⟩ := d
      cases msg with
      | malformed r =>
          simp only [runDeliveries]
          exact ih st h
      | wellFormed body r =>
          have hpre := pm_done_preserved st body r o t jid h
          have hst : statusOf (process_message st body r o t).store jid = some .DONE := by
            unfold statusOf
            rw [hpre]
            exact h
          simp only [runDeliveries]
          split
          · exact hpre
          · rw [ih _ hst]
            exact hpre

/-- Splitting a run at a point where the job is stored DONE: the rest of
the run leaves the record as it was at the split point. -/
theorem run_done_absorbing (jid : String) :
    ∀ (ds1 : List Delivery) (st : Store) (ds2 : List Delivery),
      statusOf (runDeliveries st ds1).store jid = some .DONE →
      getItem (runDeliveries st (ds1 ++ ds2)).store jid
        = getItem (runDeliveries st ds1).store jid := by
  intro ds1
  induction ds1 with
  | nil =>
      intro st ds2 h
      simp only [List.nil_append]
      simp only [runDeliveries] at h ⊢
      exact run_preserve_done jid ds2 st h
  | cons d ds ih =>
      intro st ds2 h
      obtain ⟨msg, o, t⟩ := d
      cases msg with
      | malformed r =>
          simp only [List.cons_append, runDeliveries] at h ⊢
          exact ih st ds2 h
      | wellFormed body r =>
          simp only [List.cons_append, runDeliveries] at h ⊢
          cases hres : (process_message st body r o t).result with
          | uncaught e => simp only [hres] at h ⊢
          | ok =>
              simp only [hres] at h ⊢
              exact ih _ ds2 h

theorem runD_cons_malformed (st : Store) (r : String) (o : Oracle) (t : Nat)
    (ds : List Delivery) :
    runDeliveries st (⟨.malformed r, o, t⟩ :: ds)
      = ⟨(runDeliveries st ds).store, .deleteMsgEv r :: (runDeliveries st ds).events,
         (runDeliveries st ds).crashed⟩ := rfl

theorem runD_cons_ok (st : Store) (body : MsgBody) (r : String) (o : Oracle) (t : Nat)
    (ds : List Delivery) (h : (process_message st body r o t).result = .ok) :
    runDeliveries st (⟨.wellFormed body r, o, t⟩ :: ds)
      = ⟨(runDeliveries (process_message st body r o t).store ds).store,
         (process_message st body r o t).events
           ++ (runDeliveries (process_message st body r o t).store ds).events,
         (runDeliveries (process_message st body r o t).store ds).crashed⟩ := by
  simp only [runDeliveries]
  rw [h]

theorem runD_cons_uncaught (st : Store) (body : MsgBody) (r : String) (o : Oracle) (t : Nat)
    (ds : List Delivery) (e : String)
    (h : (process_message st body r o t).result = .uncaught e) :
    runDeliveries st (⟨.wellFormed body r, o, t⟩ :: ds)
      = ⟨(process_message st body r o t).store, (process_message st body r o t).events, true⟩ := by
  simp only [runDeliveries]
  rw [h]

theorem fsRUNNING_status (t : Nat) : (fsRUNNING t).status = some .RUNNING := rfl

theorem fsDONE_status (jid : String) (t : Nat) : (fsDONE jid t).status = some .DONE := rfl

theorem fsFAILED_status (e : String) (t : Nat) : (fsFAILED e t).status = some .FAILED := rfl

theorem sw_nil (jid : String) : statusWritesTo jid [] = [] := rfl

theorem sw_cons_getJob (jid j : String) (evs : List Event) :
    statusWritesTo jid (.getJobEv j :: evs) = statusWritesTo jid evs := by
  simp [statusWritesTo]

theorem sw_cons_download (jid k : String) (evs : List Event) :
    statusWritesTo jid (.downloadEv k :: evs) = statusWritesTo jid evs := by
  simp [statusWritesTo]

theorem sw_cons_encode (jid p : String) (evs : List Event) :
    statusWritesTo jid (.encodeEv p :: evs) = statusWritesTo jid evs := by
  simp [statusWritesTo]

theorem sw_cons_upload (jid k : String) (evs : List Event) :
    statusWritesTo jid (.uploadEv k :: evs) = statusWritesTo jid evs := by
  simp [statusWritesTo]

theorem sw_cons_delete (jid r : String) (evs : List Event) :
    statusWritesTo jid (.deleteMsgEv r :: evs) = statusWritesTo jid evs := by
  simp [statusWritesTo]

theorem sw_cons_update_self (jid : String) (fs : FieldSet) (x : Status)
    (h : fs.status = some x) (evs : List Event) :
    statusWritesTo jid (.updateJobEv jid fs :: evs) = x :: statusWritesTo jid evs := by
  simp [statusWritesTo, h]

/-- Invariant relating a job's stored status between deliveries to the
recognizer state from which the remaining status writes are read. -/
def MachInv (st : Store) (jid : String) (m : Nat) : Prop :=
  ((statusOf st jid = some .PENDING ∨ statusOf st jid = some .FAILED) ∧ m = 0)
    ∨ (statusOf st jid = some .DONE ∧ m = 2)

/-- Under any deliveries, the status writes a job receives are a word the
recognizer accepts from the state matching the job's current stored
status. -/
theorem run_machine (jid : String) :
    ∀ (ds : List Delivery) (st : Store) (m : Nat), MachInv st jid m →
      (deltaRun m (statusWritesTo jid (runDeliveries st ds).events)).isSome = true := by
  intro ds
  induction ds with
  | nil =>
      intro st m _
      simp [runDeliveries, statusWritesTo, deltaRun]
  | cons d ds ih =>
      intro st m h
      obtain ⟨msg, o, t⟩ := d
      cases msg with
      | malformed r =>
          rw [runD_cons_malformed, sw_cons_delete]
          exact ih st m h
      | wellFormed body r =>
          obtain ⟨jOpt, ikOpt, p⟩ := body
          cases jOpt with
          | none =>
              rw [runD_cons_uncaught st ⟨none, ikOpt, p⟩ r o t ds _
                    (by rw [pm_keyError_jobId]), pm_keyError_jobId]
              simp [deltaRun]
          | some j =>
              cases ikOpt with
              | none =>
                  rw [runD_cons_uncaught st ⟨some j, none, p⟩ r o t ds _
                        (by rw [pm_keyError_inputKey]), pm_keyError_inputKey]
                  simp [deltaRun]
              | some ik =>
                  by_cases hj : j = jid
                  · subst hj
                    cases hb : idempotencyBlocked st j with
                    | true =>
                        have hpm := pm_blocked st j ik p r o t hb
                        rw [runD_cons_ok st ⟨some j, some ik, p⟩ r o t ds (by rw [hpm])]
                        simp only [hpm, statusWritesTo_append, sw_cons_getJob,
                          sw_cons_delete, sw_nil, List.nil_append]
                        exact ih st m h
                    | false =>
                        have hm : m = 0 := by
                          rcases h with ⟨-, hm⟩ | ⟨hdone, -⟩
                          · exact hm
                          · rw [blocked_of_done st j hdone] at hb
                            cases hb
                        subst hm
                        cases hdl : o.downloadOk with
                        | false =>
                            have hpm := pm_download_fail st j ik p r o t hb hdl
                            rw [runD_cons_uncaught st ⟨some j, some ik, p⟩ r o t ds _
                                  (by rw [hpm])]
                            simp only [hpm, sw_cons_getJob, sw_cons_download,
                              sw_cons_update_self j (fsRUNNING t) .RUNNING (fsRUNNING_status t),
                              sw_nil]
                            simp [deltaRun, delta1]
                        | true =>
                            by_cases hrc : o.ffmpegRc = 0
                            · cases hup : o.uploadOk with
                              | false =>
                                  have hpm := pm_upload_fail st j ik p r o t hb hdl hrc hup
                                  rw [runD_cons_ok st ⟨some j, some ik, p⟩ r o t ds
                                        (by rw [hpm])]
                                  simp only [hpm, statusWritesTo_append, sw_cons_getJob,
                                    sw_cons_download, sw_cons_encode, sw_cons_upload,
                                    sw_cons_update_self j (fsRUNNING t) .RUNNING
                                      (fsRUNNING_status t),
                                    sw_cons_update_self j (fsFAILED o.uploadErr t) .FAILED
                                      (fsFAILED_status o.uploadErr t),
                                    sw_nil]
                                  exact ih _ 0 (Or.inl ⟨Or.inr
                                    (statusOf_update_self _ _ _ _ _
                                      (fsFAILED_status o.uploadErr t)), rfl⟩)
                              | true =>
                                  cases hdel : o.deleteOk with
                                  | true =>
                                      have hpm := pm_success st j ik p r o t hb hdl hrc hup hdel
                                      rw [runD_cons_ok st ⟨some j, some ik, p⟩ r o t ds
                                            (by rw [hpm])]
                                      simp only [hpm, statusWritesTo_append, sw_cons_getJob,
                                        sw_cons_download, sw_cons_encode, sw_cons_upload,
                                        sw_cons_delete,
                                        sw_cons_update_self j (fsRUNNING t) .RUNNING
                                          (fsRUNNING_status t),
                                        sw_cons_update_self j (fsDONE j t) .DONE
                                          (fsDONE_status j t),
                                        sw_nil]
                                      exact ih _ 2 (Or.inr ⟨statusOf_update_self _ _ _ _ _
                                        (fsDONE_status j t), rfl⟩)
                                  | false =>
                                      have hpm := pm_delete_fail st j ik p r o t hb hdl hrc hup
                                        hdel
                                      rw [runD_cons_ok st ⟨some j, some ik, p⟩ r o t ds
                                            (by rw [hpm])]
                                      simp only [hpm, statusWritesTo_append, sw_cons_getJob,
                                        sw_cons_download, sw_cons_encode, sw_cons_upload,
                                        sw_cons_delete,
                                        sw_cons_update_self j (fsRUNNING t) .RUNNING
                                          (fsRUNNING_status t),
                                        sw_cons_update_self j (fsDONE j t) .DONE
                                          (fsDONE_status j t),
                                        sw_cons_update_self j (fsFAILED o.deleteErr t) .FAILED
                                          (fsFAILED_status o.deleteErr t),
                                        sw_nil]
                                      exact ih _ 0 (Or.inl ⟨Or.inr
                                        (statusOf_update_self _ _ _ _ _
                                          (fsFAILED_status o.deleteErr t)), rfl⟩)
                            · have hpm := pm_encode_fail st j ik p r o t hb hdl hrc
                              rw [runD_cons_ok st ⟨some j, some ik, p⟩ r o t ds (by rw [hpm])]
                              simp only [hpm, statusWritesTo_append, sw_cons_getJob,
                                sw_cons_download, sw_cons_encode,
                                sw_cons_update_self j (fsRUNNING t) .RUNNING
                                  (fsRUNNING_status t),
                                sw_cons_update_self j
                                  (fsFAILED (ffmpegFailMsg o.ffmpegRc
                                    (ffmpegCmd "input.mp4" "output.mp4" (p.getD "mp4-720p")
                                      "high") o.ffmpegStderr) t) .FAILED
                                  (fsFAILED_status _ t),
                                sw_nil]
                              exact ih _ 0 (Or.inl ⟨Or.inr
                                (statusOf_update_self _ _ _ _ _ (fsFAILED_status _ t)), rfl⟩)
                  · have hother := pm_other_key st j ik p r o t jid hj
                    have hstat : statusOf (process_message st ⟨some j, some ik, p⟩ r o t).store
                        jid = statusOf st jid := by
                      unfold statusOf
                      rw [hother.2]
                    cases hres : (process_message st ⟨some j, some ik, p⟩ r o t).result with
                    | uncaught e =>
                        rw [runD_cons_uncaught st ⟨some j, some ik, p⟩ r o t ds e hres,
                          hother.1]
                        simp [deltaRun]
                    | ok =>
                        rw [runD_cons_ok st ⟨some j, some ik, p⟩ r o t ds hres,
                          statusWritesTo_append, hother.1, List.nil_append]
                        refine ih _ m ?_
                        unfold MachInv
                        rw [hstat]
                        exact h

/-! ## Field projections of the worker's writes -/

theorem fsFAILED_error (e : String) (t : Nat) : (fsFAILED e t).error = some e := rfl

theorem fsFAILED_finishedAt (e : String) (t : Nat) : (fsFAILED e t).finishedAt = some t := rfl

theorem fsDONE_outputKey (jid : String) (t : Nat) :
    (fsDONE jid t).outputKey = some ("output/" ++ jid ++ ".mp4") := rfl

theorem fsDONE_finishedAt (jid : String) (t : Nat) : (fsDONE jid t).finishedAt = some t := rfl

theorem errorOf_update_self (st : Store) (jid : String) (fs : FieldSet) (t : Nat)
    (e : String) (h : fs.error = some e) :
    errorOf (_update_job st jid fs t) jid = some e := by
  simp [errorOf, getItem_update_self, stampUpdated, applyFieldSet, ov, h]

theorem finishedAtOf_update_self (st : Store) (jid : String) (fs : FieldSet) (t : Nat)
    (x : Nat) (h : fs.finishedAt = some x) :
    finishedAtOf (_update_job st jid fs t) jid = some x := by
  simp [finishedAtOf, getItem_update_self, stampUpdated, applyFieldSet, ov, h]

/-- The `RuntimeError` text of a failed encode is never the empty
string (it always begins with the fixed diagnostic prefix). -/
theorem ffmpegFailMsg_ne_empty (rc : Int) (cmd : List String) (s : String) :
    ffmpegFailMsg rc cmd s ≠ "" := by
  unfold ffmpegFailMsg
  intro h
  have h2 := congrArg String.length h
  simp [String.length_append] at h2
  have h3 : "ffmpeg failed (".length = 15 := rfl
  rw [h3] at h2
  omega

/-! ## Concrete fixtures used by witnesses and counterexamples -/

/-- A freshly created job record as the API writes it (PENDING). -/
def recPENDING : JobRec := { status := some .PENDING, createdAt := some 0 }

/-- A job record claimed by a worker (RUNNING). -/
def recRUNNING : JobRec := { status := some .RUNNING, startedAt := some 1 }

/-- A completed job record (DONE with its output key). -/
def recDONE : JobRec :=
  { status := some .DONE, outputKey := some "output/JD.mp4", startedAt := some 1,
    finishedAt := some 2, updatedAt := some 2, createdAt := some 0 }

/-- Oracle under which every external call succeeds. -/
def oAllOk : Oracle :=
  { downloadOk := true, downloadErr := "", ffmpegRc := 0, ffmpegStderr := "",
    uploadOk := true, uploadErr := "", deleteOk := true, deleteErr := "" }

/-- Oracle under which the S3 download raises. -/
def oDownloadFail : Oracle := { oAllOk with downloadOk := false, downloadErr := "S3 download failed" }

/-- Oracle under which ffmpeg exits non-zero. -/
def oEncodeFail : Oracle := { oAllOk with ffmpegRc := 1, ffmpegStderr := "boom" }

/-- Oracle under which the SQS delete raises after a successful encode
and upload. -/
def oDeleteFail : Oracle := { oAllOk with deleteOk := false, deleteErr := "SQS delete failed" }

/-- Store holding the single PENDING job "J". -/
def stJ : Store := [("J", recPENDING)]

/-- Queue message for job "J". -/
def msgJ : MsgBody := ⟨some "J", some "input/a.mp4", some "mp4-480p"⟩

/-- Boolean "is an initial segment of". -/
def isInitSeg : List Status → List Status → Bool
  | [], _ => true
  | _ :: _, [] => false
  | a :: xs, b :: ys => if a = b then isInitSeg xs ys else false

/-- Two deliveries of "J": the first fails in the encoder, the second
(queue redelivery) succeeds. -/
def c2Run1 : RunOut :=
  runDeliveries stJ
    [⟨.wellFormed msgJ "r1", oEncodeFail, 1⟩, ⟨.wellFormed msgJ "r2", oAllOk, 2⟩]

/-- The observed status sequence of "J" in `c2Run1`: the initial PENDING
record followed by every status value written. -/
def c2Seq1 : List Status := .PENDING :: statusWritesTo "J" c2Run1.events

/-- One delivery of "J" in which encode and upload succeed but the queue
delete raises after the DONE write. -/
def c2Run2 : RunOut := runDeliveries stJ [⟨.wellFormed msgJ "r3", oDeleteFail, 1⟩]

/-- Store holding the single DONE job "JD". -/
def stDone : Store := [("JD", recDONE)]

/-- Store holding the RUNNING job "JR". -/
def stR : Store := [("JR", recRUNNING)]

/-- Store holding the two PENDING jobs "J1" and "J2". -/
def stJ12 : Store := [("J1", recPENDING), ("J2", recPENDING)]

/-- A run in which the first delivery's S3 download raises and a second
delivery for another job is still pending behind it. -/
def c3Run : RunOut :=
  runDeliveries stJ12
    [⟨.wellFormed ⟨some "J1", some "input/a.mp4", none⟩ "r1", oDownloadFail, 1⟩,
     ⟨.wellFormed ⟨some "J2", some "input/b.mp4", none⟩ "r2", oAllOk, 2⟩]

/-- Store holding the single PENDING job "J7". -/
def stJ7 : Store := [("J7", recPENDING)]

/-- One delivery of "J7" whose encode and upload succeed but whose queue
delete raises, so the `except` handler overwrites the DONE record. -/
def c7Run : RunOut :=
  runDeliveries stJ7 [⟨.wellFormed ⟨some "J7", some "input/c.mp4", none⟩ "r7", oDeleteFail, 1⟩]

/-- Environment providing only the bucket and the queue URL. -/
def env1 : EnvMap :=
  fun k => if k = "S3_BUCKET" then some "bucket" else if k = "SQS_URL" then some "queue" else none

/-! ## Claims -/

/-- C1 (code bug).  The claim says an update issued by the core against a
job stored DONE is rejected as a silent no-op with every field unchanged.
The worker's `_update_job` passes no `ConditionExpression` to
`update_item` (contradicting its own docstring, and unlike the API-side
`dal_update_job`), so the write is applied: at the concrete DONE record
`stDone`, a FAILED update goes through, changing `status`, `error` and
`updatedAt` — while `dal_update_job`, the conditional write the spec
describes, rejects the same update. -/
theorem c1_update_applied_to_done_job :
    statusOf stDone "JD" = some .DONE
    ∧ statusOf (_update_job stDone "JD" (fsFAILED "forced failure" 9) 9) "JD" = some .FAILED
    ∧ errorOf (_update_job stDone "JD" (fsFAILED "forced failure" 9) 9) "JD"
        = some "forced failure"
    ∧ updatedAtOf (_update_job stDone "JD" (fsFAILED "forced failure" 9) 9) "JD" = some 9
    ∧ getItem (_update_job stDone "JD" (fsFAILED "forced failure" 9) 9) "JD"
        ≠ getItem stDone "JD"
    ∧ dal_update_job stDone "JD" (fsFAILED "forced failure" 9) 9
        = .error "ConditionalCheckFailedException" :=
  ⟨by decide, by decide, by decide, by decide, by decide, rfl⟩

/-- C2 counterexample.  After an encoder failure the queue redelivers the
message and the guard admits the FAILED job again, so "J" observes the
status sequence [PENDING, RUNNING, FAILED, RUNNING, DONE], which is an
initial segment of neither [PENDING, RUNNING, DONE] nor
[PENDING, RUNNING, FAILED]; and when the queue delete raises after the
DONE write, the `except` handler overwrites the DONE record with FAILED
(writes [RUNNING, DONE, FAILED]), so DONE is not absorbing either. -/
theorem c2_counterexample :
    c2Seq1 = [.PENDING, .RUNNING, .FAILED, .RUNNING, .DONE]
    ∧ isInitSeg c2Seq1 [.PENDING, .RUNNING, .DONE] = false
    ∧ isInitSeg c2Seq1 [.PENDING, .RUNNING, .FAILED] = false
    ∧ statusWritesTo "J" c2Run2.events = [.RUNNING, .DONE, .FAILED]
    ∧ statusOf c2Run2.store "J" = some .FAILED := by decide

/-- C2 as amended.  For a job created PENDING, under any sequence of
deliveries the written status values read as a word accepted by the
attempt recognizer `delta1` (PENDING, then repeated attempts RUNNING
followed by FAILED or by DONE, where a DONE may be overwritten by one
FAILED when the queue delete of the same attempt raises, and a final
attempt may end at RUNNING when the loop crashes); and once the stored
status between deliveries is DONE, the remaining deliveries leave the
record unchanged. -/
theorem c2_amended (st0 : Store) (jid : String) (ds : List Delivery)
    (h : statusOf st0 jid = some .PENDING) :
    (deltaRun 0 (statusWritesTo jid (runDeliveries st0 ds).events)).isSome = true
    ∧ ∀ ds1 ds2, ds = ds1 ++ ds2 →
        statusOf (runDeliveries st0 ds1).store jid = some .DONE →
        getItem (runDeliveries st0 ds).store jid
          = getItem (runDeliveries st0 ds1).store jid := by
  constructor
  · exact run_machine jid ds st0 0 (Or.inl ⟨Or.inl h, rfl⟩)
  · intro ds1 ds2 hsplit hdone
    rw [hsplit]
    exact run_done_absorbing jid ds1 st0 ds2 hdone

theorem c2_amended_witness :
    (deltaRun 0 (statusWritesTo "J"
      (runDeliveries stJ [⟨.wellFormed msgJ "rw2", oAllOk, 1⟩]).events)).isSome = true :=
  (c2_amended stJ "J" [⟨.wellFormed msgJ "rw2", oAllOk, 1⟩] (by decide)).1

/-- C3 counterexample.  A failure in the S3 download of the input is NOT
caught at the per-message boundary: the download sits before the `try:`
block of `process_message`, and `main` does not wrap `process_message`
either, so the delivery crashes the loop — the job stays RUNNING with no
`error`, and the following well-formed delivery for "J2" is never
processed. -/
theorem c3_counterexample :
    c3Run.crashed = true
    ∧ statusOf c3Run.store "J1" = some .RUNNING
    ∧ errorOf c3Run.store "J1" = none
    ∧ statusOf c3Run.store "J2" = some .PENDING := by decide

/-- C3 as amended.  Failures raised in the steps inside the `try:` block
(encode, upload) are caught at the per-message boundary: the job is
degraded to FAILED, `process_message` returns normally, and the consumer
loop continues with the remaining deliveries.  (Download failures are
outside the boundary and halt the loop, per the counterexample.) -/
theorem c3_amended (st : Store) (jid ik : String) (p : Option String) (r : String)
    (o : Oracle) (t : Nat) (ds : List Delivery)
    (hg : idempotencyBlocked st jid = false) (hd : o.downloadOk = true)
    (hf : o.ffmpegRc ≠ 0 ∨ (o.ffmpegRc = 0 ∧ o.uploadOk = false)) :
    (process_message st ⟨some jid, some ik, p⟩ r o t).result = .ok
    ∧ statusOf (process_message st ⟨some jid, some ik, p⟩ r o t).store jid = some .FAILED
    ∧ (runDeliveries st (⟨.wellFormed ⟨some jid, some ik, p⟩ r, o, t⟩ :: ds)).crashed
        = (runDeliveries (process_message st ⟨some jid, some ik, p⟩ r o t).store ds).crashed := by
  rcases hf with hrc | ⟨hrc, hup⟩
  · have hpm := pm_encode_fail st jid ik p r o t hg hd hrc
    refine ⟨by rw [hpm], ?_, ?_⟩
    · simp only [hpm]
      exact statusOf_update_self _ _ _ _ _ (fsFAILED_status _ t)
    · rw [runD_cons_ok st ⟨some jid, some ik, p⟩ r o t ds (by rw [hpm])]
  · have hpm := pm_upload_fail st jid ik p r o t hg hd hrc hup
    refine ⟨by rw [hpm], ?_, ?_⟩
    · simp only [hpm]
      exact statusOf_update_self _ _ _ _ _ (fsFAILED_status _ t)
    · rw [runD_cons_ok st ⟨some jid, some ik, p⟩ r o t ds (by rw [hpm])]

theorem c3_amended_witness :
    (process_message stJ ⟨some "J", some "input/a.mp4", none⟩ "rw3" oEncodeFail 1).result = .ok
    ∧ statusOf (process_message stJ ⟨some "J", some "input/a.mp4", none⟩ "rw3" oEncodeFail
        1).store "J" = some .FAILED
    ∧ (runDeliveries stJ
        [⟨.wellFormed ⟨some "J", some "input/a.mp4", none⟩ "rw3", oEncodeFail, 1⟩]).crashed
        = (runDeliveries (process_message stJ ⟨some "J", some "input/a.mp4", none⟩ "rw3"
            oEncodeFail 1).store []).crashed :=
  c3_amended stJ "J" "input/a.mp4" none "rw3" oEncodeFail 1 [] (by decide) (by decide)
    (Or.inl (by decide))

/-- C4 (confirmed).  A delivery for a job whose stored status the guard
reads as RUNNING or DONE only reads the record and deletes the message:
the store is returned unchanged, no update event and no encode event
occur, and the delivery ends normally. -/
theorem c4_duplicate_delivery_noop (st : Store) (jid ik : String) (p : Option String)
    (r : String) (o : Oracle) (t : Nat) (j : JobRec) (hj : getItem st jid = some j)
    (hs : j.status = some .RUNNING ∨ j.status = some .DONE) :
    process_message st ⟨some jid, some ik, p⟩ r o t
      = ⟨st, [.getJobEv jid, .deleteMsgEv r], true, .ok⟩ := by
  apply pm_blocked
  unfold idempotencyBlocked
  rw [hj]
  rcases hs with h | h <;> simp [h]

theorem c4_witness :
    process_message stR ⟨some "JR", some "input/r.mp4", none⟩ "rw4" oAllOk 3
      = ⟨stR, [.getJobEv "JR", .deleteMsgEv "rw4"], true, .ok⟩ :=
  c4_duplicate_delivery_noop stR "JR" "input/r.mp4" none "rw4" oAllOk 3 recRUNNING
    (by decide) (Or.inl (by decide))

/-- C5 (confirmed).  When every step succeeds, the delivery's call trace
is exactly: guard read, RUNNING write, download, encode, upload to
`output/<jobId>.mp4`, DONE write carrying `outputKey` and `finishedAt`,
then the queue-message delete — so the upload precedes the DONE write,
which precedes the delete. -/
theorem c5_success_effect_order (st : Store) (jid ik : String) (p : Option String)
    (r : String) (o : Oracle) (t : Nat) (hg : idempotencyBlocked st jid = false)
    (hd : o.downloadOk = true) (hrc : o.ffmpegRc = 0) (hup : o.uploadOk = true)
    (hdel : o.deleteOk = true) :
    (process_message st ⟨some jid, some ik, p⟩ r o t).events
      = [.getJobEv jid, .updateJobEv jid (fsRUNNING t), .downloadEv ik,
         .encodeEv (p.getD "mp4-720p"), .uploadEv ("output/" ++ jid ++ ".mp4"),
         .updateJobEv jid (fsDONE jid t), .deleteMsgEv r]
    ∧ (process_message st ⟨some jid, some ik, p⟩ r o t).deleted = true := by
  rw [pm_success st jid ik p r o t hg hd hrc hup hdel]
  exact ⟨rfl, rfl⟩

theorem c5_witness :
    (process_message stJ ⟨some "J", some "input/a.mp4", some "mp4-480p"⟩ "rw5" oAllOk 4).events
      = [.getJobEv "J", .updateJobEv "J" (fsRUNNING 4), .downloadEv "input/a.mp4",
         .encodeEv "mp4-480p", .uploadEv "output/J.mp4",
         .updateJobEv "J" (fsDONE "J" 4), .deleteMsgEv "rw5"]
    ∧ (process_message stJ ⟨some "J", some "input/a.mp4", some "mp4-480p"⟩ "rw5" oAllOk
        4).deleted = true :=
  c5_success_effect_order stJ "J" "input/a.mp4" (some "mp4-480p") "rw5" oAllOk 4
    (by decide) rfl rfl rfl rfl

/-- C6 counterexample.  A failure in the download step does NOT produce a
FAILED record: the download precedes the `try:` block, so the exception
propagates, the job is left RUNNING with no `error` and no `finishedAt`,
and the delivery ends with an uncaught exception (the message is indeed
not deleted, but not as the claim describes). -/
theorem c6_counterexample :
    (process_message stJ msgJ "r6" oDownloadFail 1).result = .uncaught "S3 download failed"
    ∧ statusOf (process_message stJ msgJ "r6" oDownloadFail 1).store "J" = some .RUNNING
    ∧ errorOf (process_message stJ msgJ "r6" oDownloadFail 1).store "J" = none
    ∧ finishedAtOf (process_message stJ msgJ "r6" oDownloadFail 1).store "J" = none
    ∧ (process_message stJ msgJ "r6" oDownloadFail 1).deleted = false := by decide

/-- C6 as amended.  For a pipeline failure in encode or upload (the steps
inside the `try:` block), the worker writes FAILED with `finishedAt` and
with `error` set to the raised exception's text — never empty for an
encoder failure — and does not delete the queue message.  A download
failure instead propagates with no FAILED write, per the
counterexample. -/
theorem c6_amended (st : Store) (jid ik : String) (p : Option String) (r : String)
    (o : Oracle) (t : Nat) (hg : idempotencyBlocked st jid = false)
    (hd : o.downloadOk = true)
    (hf : o.ffmpegRc ≠ 0 ∨ (o.ffmpegRc = 0 ∧ o.uploadOk = false)) :
    statusOf (process_message st ⟨some jid, some ik, p⟩ r o t).store jid = some .FAILED
    ∧ finishedAtOf (process_message st ⟨some jid, some ik, p⟩ r o t).store jid = some t
    ∧ (process_message st ⟨some jid, some ik, p⟩ r o t).deleted = false
    ∧ ∃ e, errorOf (process_message st ⟨some jid, some ik, p⟩ r o t).store jid = some e
        ∧ (o.ffmpegRc ≠ 0 → e ≠ "") := by
  rcases hf with hrc | ⟨hrc, hup⟩
  · have hpm := pm_encode_fail st jid ik p r o t hg hd hrc
    simp only [hpm]
    exact ⟨statusOf_update_self _ _ _ _ _ (fsFAILED_status _ t),
      finishedAtOf_update_self _ _ _ _ _ (fsFAILED_finishedAt _ t), trivial,
      ⟨ffmpegFailMsg o.ffmpegRc
          (ffmpegCmd "input.mp4" "output.mp4" (p.getD "mp4-720p") "high") o.ffmpegStderr,
        errorOf_update_self _ _ _ _ _ (fsFAILED_error _ t),
        fun _ => ffmpegFailMsg_ne_empty _ _ _⟩⟩
  · have hpm := pm_upload_fail st jid ik p r o t hg hd hrc hup
    simp only [hpm]
    exact ⟨statusOf_update_self _ _ _ _ _ (fsFAILED_status _ t),
      finishedAtOf_update_self _ _ _ _ _ (fsFAILED_finishedAt _ t), trivial,
      ⟨o.uploadErr, errorOf_update_self _ _ _ _ _ (fsFAILED_error _ t),
        fun hc => absurd hrc hc⟩⟩

theorem c6_amended_witness :
    statusOf (process_message stJ ⟨some "J", some "input/a.mp4", none⟩ "rw6" oEncodeFail
        2).store "J" = some .FAILED
    ∧ finishedAtOf (process_message stJ ⟨some "J", some "input/a.mp4", none⟩ "rw6" oEncodeFail
        2).store "J" = some 2
    ∧ (process_message stJ ⟨some "J", some "input/a.mp4", none⟩ "rw6" oEncodeFail 2).deleted
        = false
    ∧ ∃ e, errorOf (process_message stJ ⟨some "J", some "input/a.mp4", none⟩ "rw6" oEncodeFail
        2).store "J" = some e ∧ (oEncodeFail.ffmpegRc ≠ 0 → e ≠ "") :=
  c6_amended stJ "J" "input/a.mp4" none "rw6" oEncodeFail 2 (by decide) (by decide)
    (Or.inl (by decide))

/-- C7 (code bug).  The claim (`outputKey` present iff `status = DONE`)
matches the spec's invariant, but the missing `ConditionExpression` in
the worker's `_update_job` lets the `except` handler overwrite a DONE
record: when the queue delete raises after a successful upload and DONE
write, the stored record ends with `status = FAILED` while `outputKey`
is still present. -/
theorem c7_outputKey_without_done :
    statusOf c7Run.store "J7" = some .FAILED
    ∧ outputKeyOf c7Run.store "J7" = some "output/J7.mp4"
    ∧ errorOf c7Run.store "J7" = some "SQS delete failed" := by decide

/-- C8 (confirmed).  Preset resolution is the pure lookup
`PRESET_SPECS.get(preset, PRESET_SPECS["mp4-720p"])`: "mp4-720p" resolves
to width 1280, height 720, crf 23, and any name outside the four keys of
the map resolves to exactly the same parameters instead of failing. -/
theorem c8_preset_fallback (p : String)
    (h : p ∉ ["mp4-1080p", "mp4-720p", "mp4-480p", "mp4-360p"]) :
    resolvePreset "mp4-720p" = ⟨1280, 720, 23⟩
    ∧ resolvePreset p = resolvePreset "mp4-720p" := by
  simp only [List.mem_cons, List.not_mem_nil, or_false, not_or] at h
  obtain ⟨h1, h2, h3, h4⟩ := h
  refine ⟨rfl, ?_⟩
  simp [resolvePreset, PRESET_SPECS, getSpec, Ne.symm h1, Ne.symm h2, Ne.symm h3, Ne.symm h4]

theorem c8_witness :
    resolvePreset "mp4-720p" = ⟨1280, 720, 23⟩
    ∧ resolvePreset "unknown-preset" = resolvePreset "mp4-720p" :=
  c8_preset_fallback "unknown-preset" (by decide)

/-- C9 counterexample.  With only the bucket and the queue URL set,
startup validation succeeds even though the job-table identifier, the
lease ceiling and the poll wait are all absent from the environment —
so absence of those three is not fatal, contrary to the claim's list of
five. -/
theorem c9_counterexample :
    assert_core_env env1 = .ok ()
    ∧ env1 "DDB_JOBS_TABLE" = none
    ∧ env1 "MAX_VIS_TIMEOUT" = none
    ∧ DDB_JOBS_TABLE env1 = "a3_jobs"
    ∧ MAX_VIS_TIMEOUT env1 = some 1800 :=
  ⟨rfl, rfl, rfl, rfl, rfl⟩

/-- C9 as amended.  Startup validation fails exactly when the storage
bucket or the queue URL is unset-or-empty or the job-table variable is
set to the empty string; the job-table identifier defaults to "a3_jobs"
when absent, the lease ceiling defaults to 1800 when absent, and the
poll wait (`WaitTimeSeconds=20`) is hard-coded, so their absence is
never fatal. -/
theorem c9_amended (env : EnvMap) :
    (assert_core_env env = .ok ()
      ↔ (pyFalsy (S3_BUCKET env) = false ∧ pyFalsy (SQS_URL env) = false
          ∧ DDB_JOBS_TABLE env ≠ ""))
    ∧ (env "MAX_VIS_TIMEOUT" = none → MAX_VIS_TIMEOUT env = some 1800) := by
  constructor
  · unfold assert_core_env
    by_cases ha : pyFalsy (S3_BUCKET env) = true
      <;> by_cases hb : pyFalsy (SQS_URL env) = true
      <;> by_cases hc : DDB_JOBS_TABLE env = ""
      <;> simp [ha, hb, hc]
  · intro h
    unfold MAX_VIS_TIMEOUT
    rw [h]
    rfl

theorem c9_amended_witness : MAX_VIS_TIMEOUT env1 = some 1800 :=
  (c9_amended env1).2 rfl

/-- C10 (confirmed).  A well-formed-JSON message missing `jobId` (or
missing `inputKey`) makes `process_message` raise `KeyError` before any
store read/write or queue call — the store is returned untouched, the
trace is empty and the message is not deleted — and since `main` only
wraps the JSON parse in its try/except, the exception crashes the loop:
the run ends immediately with the remaining deliveries unprocessed. -/
theorem c10_missing_key_uncaught (st : Store) (r : String) (o : Oracle) (t : Nat)
    (ik p pr : Option String) (j : String) (ds : List Delivery) :
    process_message st ⟨none, ik, p⟩ r o t = ⟨st, [], false, .uncaught "KeyError: jobId"⟩
    ∧ process_message st ⟨some j, none, pr⟩ r o t
        = ⟨st, [], false, .uncaught "KeyError: inputKey"⟩
    ∧ runDeliveries st (⟨.wellFormed ⟨none, ik, p⟩ r, o, t⟩ :: ds) = ⟨st, [], true⟩ :=
  ⟨rfl, rfl, rfl⟩
